import Mathlib

/-!
Verification of the pdf-renamer pipeline: a shallow embedding of
`filename_generator.py` (sanitization, two-pass suggestion generation under a
tenacity retry decorator) and `main.py` (per-task orchestration, collision
resolution, the rename/dry-run phase, and base-URL resolution), together with
theorems settling the specification claims.
-/

/-- The characters stripped by `sanitize_filename`
(`re.sub(r'[<>:"/\\|?*]', '', filename)`). -/
def illegalChar (c : Char) : Bool :=
  ['<', '>', ':', '"', '/', '\\', '|', '?', '*'].contains c

/-- Whitespace characters, modelling the character class matched by Python's
regex `\s` on `str` (ASCII whitespace plus Unicode space characters). -/
def pySpace (c : Char) : Bool :=
  [' ', '\t', '\n', '\r', '\x0b', '\x0c', '\x1c', '\x1d', '\x1e', '\x1f',
   '\x85', '\xa0', '\u1680', '\u2000', '\u2001', '\u2002', '\u2003', '\u2004',
   '\u2005', '\u2006', '\u2007', '\u2008', '\u2009', '\u200a', '\u2028',
   '\u2029', '\u202f', '\u205f', '\u3000'].contains c

/-- The character class `[\s\-]` of the run-collapsing substitution. -/
def spaceHyphen (c : Char) : Bool := pySpace c || c == '-'

/-- `re.sub(r'[\s\-]+', '-', ·)`: each maximal run of whitespace/hyphen
characters is replaced by a single `'-'`.  The flag records whether the
previous character belonged to a run that has already emitted its hyphen. -/
def collapseAux : List Char → Bool → List Char
  | [], _ => []
  | c :: cs, inRun =>
    if spaceHyphen c then
      if inRun then collapseAux cs true else '-' :: collapseAux cs true
    else c :: collapseAux cs false

/-- Python `lstrip('-')` on the character list. -/
def stripLead (l : List Char) : List Char := l.dropWhile (fun c => c == '-')

/-- Python `rstrip('-')` on the character list. -/
def stripTrail (l : List Char) : List Char :=
  (l.reverse.dropWhile (fun c => c == '-')).reverse

/-- `FilenameGenerator.sanitize_filename`: strip `<>:"/\|?*`, collapse runs of
whitespace/hyphens to a single hyphen, strip leading/trailing hyphens, and if
longer than 100 characters truncate to 100 and strip trailing hyphens again. -/
def sanitize_filename (s : String) : String :=
  let l1 := s.data.filter (fun c => !illegalChar c)
  let l2 := collapseAux l1 false
  let l3 := stripTrail (stripLead l2)
  ⟨if 100 < l3.length then stripTrail (l3.take 100) else l3⟩

/-- The structured output of the suggestion adapter (`SuggestedFilename`). -/
structure Suggestion where
  filename : String
  confidence : String
  reasoning : String
deriving DecidableEq

/-- Outcome of one raw LLM call (`self.agent.run`): a structured suggestion, a
transient transport exception (`APIError`, `APIConnectionError`,
`RateLimitError`, `APITimeoutError`), or any other (non-retryable) exception. -/
inductive CallOutcome
  | ok (s : Suggestion)
  | transient (msg : String)
  | fatal (msg : String)
deriving DecidableEq

/-- An exception escaping `generate_filename`, tagged by whether tenacity's
`retry_if_exception_type` would retry it. -/
inductive PyErr
  | transient (msg : String)
  | fatal (msg : String)
deriving DecidableEq

/-- Python code-point slicing `s[:n]`. -/
def strTake (s : String) (n : Nat) : String := ⟨s.data.take n⟩

/-- Python `str.lower()` (restricted to the character-wise case mapping):
lower-case every character. -/
def pyLower (s : String) : String := ⟨s.data.map Char.toLower⟩

/-- `suggestion.confidence.lower() == "low"`. -/
def lowConf (s : Suggestion) : Bool := pyLower s.confidence == "low"

/-- Result of one attempt of the (undecorated) body of `generate_filename`:
the returned suggestion or the escaping exception, the text excerpts passed to
each LLM call made, and the next unconsumed index of the call oracle. -/
structure AttemptRun where
  result : Except PyErr Suggestion
  excerpts : List String
  next : Nat

/-- One execution of the body of `generate_filename` over an oracle giving the
outcome of each successive LLM call: a first pass on the full excerpt and, if
its confidence is "low" (case-insensitively), a second pass whose context
carries `text_excerpt[:4000]`; the second result replaces the first. -/
def runAttempt (excerpt : String) (oracle : Nat → CallOutcome) (i : Nat) :
    AttemptRun :=
  match oracle i with
  | .transient m => ⟨.error (.transient m), [excerpt], i + 1⟩
  | .fatal m => ⟨.error (.fatal m), [excerpt], i + 1⟩
  | .ok s =>
    if lowConf s then
      match oracle (i + 1) with
      | .transient m => ⟨.error (.transient m), [excerpt, strTake excerpt 4000], i + 2⟩
      | .fatal m => ⟨.error (.fatal m), [excerpt, strTake excerpt 4000], i + 2⟩
      | .ok s2 => ⟨.ok s2, [excerpt, strTake excerpt 4000], i + 2⟩
    else ⟨.ok s, [excerpt], i + 1⟩

/-- tenacity `wait_exponential(multiplier=2, min=4, max=30)` evaluated after
the failure of the attempt numbered `attempt` (1-based):
`max(min, min(multiplier * exp_base ** (attempt - 1), max))`. -/
def tenacityWait (attempt : Nat) : Nat := max 4 (min (2 * 2 ^ (attempt - 1)) 30)

/-- Aggregate behaviour of the decorated `generate_filename`: final result,
excerpts of every LLM call made across all attempts, backoff delays slept
before each retry, and the number of attempts performed. -/
structure RetryRun where
  result : Except PyErr Suggestion
  excerpts : List String
  waits : List Nat
  attempts : Nat

/-- Terminal wrap of an attempt of the body: tenacity performs no further
retry, and the attempt's own result (suggestion or exception, the latter
re-raised because of `reraise=True`) is the overall outcome. -/
def attemptOut (a : AttemptRun) : RetryRun :=
  match a.result with
  | .ok s => ⟨.ok s, a.excerpts, [], 1⟩
  | .error e => ⟨.error e, a.excerpts, [], 1⟩

/-- The tenacity retry loop around the body of `generate_filename`:
`remaining` is the number of further attempts permitted after the current one
(`stop_after_attempt(3)` starts it at 2); a transient error with attempts left
sleeps `tenacityWait attempt` and retries; success, a non-retryable error, or
exhaustion (`reraise=True`) ends the loop with the current attempt's outcome. -/
def genRetryAux (excerpt : String) (oracle : Nat → CallOutcome) :
    Nat → Nat → Nat → RetryRun
  | i, _, 0 => attemptOut (runAttempt excerpt oracle i)
  | i, attempt, r + 1 =>
    let a := runAttempt excerpt oracle i
    match a.result with
    | .error (.transient _) =>
      let rest := genRetryAux excerpt oracle a.next (attempt + 1) r
      ⟨rest.result, a.excerpts ++ rest.excerpts,
        tenacityWait attempt :: rest.waits, rest.attempts + 1⟩
    | _ => attemptOut a

/-- `FilenameGenerator.generate_filename` under its `@retry` decorator
(`stop_after_attempt(3)`, `wait_exponential(multiplier=2, min=4, max=30)`,
retry on the four transport error classes, `reraise=True`). -/
def generate_filename (excerpt : String) (oracle : Nat → CallOutcome) : RetryRun :=
  genRetryAux excerpt oracle 0 1 2

/-- Decimal digit value of a character, for parsing back rendered numbers. -/
def digitVal (c : Char) : Nat := c.toNat - 48

/-- Decimal parser used to show that decimal rendering is injective. -/
def parseNat (l : List Char) : Nat := l.foldl (fun a c => 10 * a + digitVal c) 0

/-- Decimal rendering of a natural number (most significant digit first),
with explicit fuel; `fuel > n` always suffices. -/
def toDecimalAux : Nat → Nat → List Char
  | 0, _ => []
  | fuel + 1, n =>
    if n < 10 then [Nat.digitChar n]
    else toDecimalAux fuel (n / 10) ++ [Nat.digitChar (n % 10)]

/-- Python `str(counter)` for a natural number: standard decimal rendering. -/
def natToString (n : Nat) : String := ⟨toDecimalAux (n + 1) n⟩

/-- The candidate target file names tried by `process_renames`:
`f"{suggested_name}.pdf"` first, then `f"{suggested_name}-{counter}.pdf"` for
`counter = 1, 2, ...`. -/
def pyCandidate (base : String) : Nat → String
  | 0 => base ++ ".pdf"
  | k + 1 => base ++ "-" ++ natToString (k + 1) ++ ".pdf"

/-- The `while final_path.exists()` loop: starting at counter `k`, return the
first candidate not present in `fs`.  The fuel bound is immaterial whenever it
exceeds the number of existing files (proved below); on exhaustion the current
candidate is returned. -/
def freeFrom (fs : List String) (cand : Nat → String) : Nat → Nat → String
  | k, 0 => cand k
  | k, fuel + 1 => if cand k ∈ fs then freeFrom fs cand (k + 1) fuel else cand k

/-- Collision resolution of `process_renames` (main.py lines 499-509): if the
plain `{base}.pdf` name exists, append `-1`, `-2`, ... until a free name is
found. -/
def resolveTarget (fs : List String) (base : String) : String :=
  if pyCandidate base 0 ∈ fs then freeFrom fs (pyCandidate base) 1 (fs.length + 1)
  else pyCandidate base 0

/-- A filesystem mutation performed by the tool. -/
inductive FsOp
  | mkdir (d : String)
  | rename (src dst : String)
  | move (src dst : String)
deriving DecidableEq

/-- One entry of the `results` list consumed by the rename phase: the original
file's directory and name, and the (already sanitized) suggestion data. -/
structure RenResult where
  dir : String
  name : String
  suggested : String
  confidence : String
  reasoning : String
deriving DecidableEq

/-- Path join, standing in for `pathlib`'s `dir / name`. -/
def joinPath (d f : String) : String := d ++ "/" ++ f

/-- State threaded through the rename phase: the filesystem contents, the
mutations performed, the reported (original, target) pairs, the two summary
counters, and the next index into the interactive-decision oracle. -/
structure RenPhaseOut where
  fs : List String
  ops : List FsOp
  reports : List (String × String)
  renamed : Nat
  skipped : Nat
  userIdx : Nat
deriving DecidableEq

/-- `process_renames` (main.py lines 454-531).  Each result is skipped when
its suggested name is empty or its confidence is "error"; in interactive mode
the decision oracle `u` plays `prompt_interactive_rename`, returning the final
name and whether to proceed; a same-name in-place rename is skipped; the
target is collision-resolved against the current filesystem; in dry-run the
plan is reported with no mutation, otherwise a move (with an output directory)
or an in-place rename is performed. -/
def process_renames (dryRun : Bool) (outDir : Option String) (interactive : Bool)
    (u : Nat → String × Bool) : List RenResult → RenPhaseOut → RenPhaseOut
  | [], st => st
  | r :: rest, st =>
    if r.suggested = "" ∨ r.confidence = "error" then
      process_renames dryRun outDir interactive u rest
        { st with skipped := st.skipped + 1 }
    else
      let dec := if interactive then u st.userIdx else (r.suggested, true)
      let st1 := { st with
        userIdx := if interactive then st.userIdx + 1 else st.userIdx }
      if dec.2 = false then
        process_renames dryRun outDir interactive u rest
          { st1 with skipped := st1.skipped + 1 }
      else
        if outDir = none ∧ r.name = dec.1 ++ ".pdf" then
          process_renames dryRun outDir interactive u rest
            { st1 with skipped := st1.skipped + 1 }
        else
          let final := resolveTarget st1.fs (joinPath (outDir.getD r.dir) dec.1)
          if dryRun then
            process_renames dryRun outDir interactive u rest
              { st1 with reports := st1.reports ++ [(r.name, final)],
                         renamed := st1.renamed + 1 }
          else
            let src := joinPath r.dir r.name
            process_renames dryRun outDir interactive u rest
              { st1 with
                  fs := st1.fs.erase src ++ [final],
                  ops := st1.ops ++
                    [if outDir.isSome then FsOp.move src final
                     else FsOp.rename src final],
                  reports := st1.reports ++ [(r.name, final)],
                  renamed := st1.renamed + 1 }

/-- Setup-phase filesystem effect of `main` (main.py lines 254-259): when an
output directory is given, `output_dir.mkdir(parents=True, exist_ok=True)`
creates it if it does not yet exist — before dry-run is ever consulted. -/
def setupOps : Option String → Bool → List FsOp
  | none, _ => []
  | some d, dirEx => if dirEx then [] else [FsOp.mkdir d]

/-- The non-interactive results table (main.py lines 422-444): one row
`(original name, suggested ++ ".pdf")` per result with a nonempty suggestion. -/
def tableRows (results : List RenResult) : List (String × String) :=
  (results.filter (fun r => r.suggested ≠ "")).map
    (fun r => (r.name, r.suggested ++ ".pdf"))

/-- Initial rename-phase state over a given filesystem. -/
def initState (fs : List String) : RenPhaseOut := ⟨fs, [], [], 0, 0, 0⟩

/-- Whole-run filesystem/reporting model of `main`: the setup mkdir, the
suggestions table (printed only when not interactive), and the rename phase,
which runs only when `not dry_run or interactive` (main.py line 447).
Returns (all mutations, table rows, rename-phase reports). -/
def runModel (dryRun interactive : Bool) (outDir : Option String) (dirEx : Bool)
    (u : Nat → String × Bool) (results : List RenResult) (fs : List String) :
    List FsOp × List (String × String) × List (String × String) :=
  (setupOps outDir dirEx ++
    (if ¬dryRun ∨ interactive then
      process_renames dryRun outDir interactive u results (initState fs)
     else initState fs).ops,
   if interactive then [] else tableRows results,
   (if ¬dryRun ∨ interactive then
      process_renames dryRun outDir interactive u results (initState fs)
    else initState fs).reports)

/-- Final status recorded for a task by `process_pdf`'s status tracker. -/
inductive TaskStatus
  | complete
  | error
deriving DecidableEq

/-- Input of one task: the file path, the outcome of the extraction adapter
(`Except.error` when it raises), and the LLM call oracle for this task. -/
structure TaskInput where
  path : String
  extraction : Except String String
  oracle : Nat → CallOutcome

/-- The per-task result tuple of `process_pdf`, together with the final
tracker status. -/
structure TaskOut where
  path : String
  suggested : String
  confidence : String
  reasoning : String
  status : TaskStatus
deriving DecidableEq

/-- The message carried by an escaping exception (`str(e)`). -/
def errMsg : PyErr → String
  | .transient m => m
  | .fatal m => m

/-- `process_pdf` (main.py lines 140-209): extraction, then the decorated
`generate_filename`, then `sanitize_filename`; any exception from either phase
is caught and turned into the error tuple
`(pdf_path, "", "error", str(e), "", {})` with tracker status Error. -/
def process_pdf (t : TaskInput) : TaskOut :=
  match t.extraction with
  | .error e => ⟨t.path, "", "error", e, .error⟩
  | .ok text =>
    match (generate_filename text t.oracle).result with
    | .error err => ⟨t.path, "", "error", errMsg err, .error⟩
    | .ok s =>
      ⟨t.path, sanitize_filename s.filename, s.confidence, s.reasoning, .complete⟩

/-- `process_all` / `asyncio.gather` over all tasks (main.py lines 389-416):
one result per input, in order; `process_pdf` never raises, so
`return_exceptions=True` passes every tuple through. -/
def process_all (ts : List TaskInput) : List TaskOut := ts.map process_pdf

/-- An oracle all of whose calls return a structured suggestion. -/
def oracleAllOk (o : Nat → CallOutcome) : Prop := ∀ n, ∃ s, o n = CallOutcome.ok s

/-- The typer default of the `--url` option (main.py lines 226-229). -/
def urlFlagDefault : String := "http://localhost:11434/v1"

/-- The value of the `url` parameter after typer argument parsing: the flag's
value when given, else the declared default. -/
def typerUrlValue (flag : Option String) : String := flag.getD urlFlagDefault

/-- main.py line 262:
`base_url = url or os.getenv("LLM_BASE_URL", "http://localhost:11434/v1")` —
Python `or` takes the left operand unless it is falsy (the empty string). -/
def computeBaseUrl (flag : Option String) (envBaseUrl : Option String) : String :=
  if typerUrlValue flag = "" then envBaseUrl.getD urlFlagDefault
  else typerUrlValue flag

/-- Adjacent characters are not both hyphens: holding along a string means it
has no run of two or more consecutive hyphens. -/
def hyphenApart (a b : Char) : Prop := ¬(a = '-' ∧ b = '-')

/-- Oracle of the C2 counterexample: both calls answer with confidence
"low"; the excerpt is only 3 characters long. -/
def c2cOracle : Nat → CallOutcome := fun n =>
  if n = 0 then CallOutcome.ok ⟨"t", "low", "r"⟩
  else CallOutcome.ok ⟨"u", "low", "r"⟩

/-- Oracle of the C2 witness: the first call answers "Low" (exercising the
case-insensitive comparison), the second "high". -/
def c2wOracle : Nat → CallOutcome := fun n =>
  if n = 0 then CallOutcome.ok ⟨"t", "Low", "r"⟩
  else CallOutcome.ok ⟨"u", "high", "r"⟩

/-- Oracle of the C8 counterexample: a transient failure, then a
low-confidence answer, then a good one — three LLM calls for one task. -/
def c8cOracle : Nat → CallOutcome := fun n =>
  if n = 0 then CallOutcome.transient "timeout"
  else if n = 1 then CallOutcome.ok ⟨"x", "low", "r"⟩
  else CallOutcome.ok ⟨"y", "high", "r"⟩

/-- An oracle whose every call returns a high-confidence suggestion. -/
def okHighOracle : Nat → CallOutcome :=
  fun _ => CallOutcome.ok ⟨"Smith-Paper-2020", "high", "found"⟩

/-- An oracle whose every call raises a transient transport error. -/
def allTransientOracle : Nat → CallOutcome :=
  fun _ => CallOutcome.transient "timeout"

/-- An oracle whose first call raises a non-retryable error. -/
def allFatalOracle : Nat → CallOutcome :=
  fun _ => CallOutcome.fatal "malformed"

/-- A task whose extraction and suggestion calls all succeed. -/
def tGood : TaskInput := ⟨"b.pdf", Except.ok "text", okHighOracle⟩

/-- A task whose extraction adapter raises. -/
def tBad : TaskInput := ⟨"a.pdf", Except.error "boom", okHighOracle⟩

/-- A rename-phase result whose suggested name is empty. -/
def emptyResult : RenResult := ⟨"d", "x.pdf", "", "low", "r"⟩

/-- An interactive-decision oracle that always skips. -/
def u0 : Nat → String × Bool := fun _ => ("", false)

/- ------------------------------------------------------------------ -/
/- Lemmas about the sanitizer.                                         -/
/- ------------------------------------------------------------------ -/

theorem mem_collapseAux :
    ∀ (l : List Char) (b : Bool) {c : Char}, c ∈ collapseAux l b →
      c = '-' ∨ (c ∈ l ∧ spaceHyphen c = false) := by
  intro l
  induction l with
  | nil => intro b c h; simp [collapseAux] at h
  | cons d cs ih =>
    intro b c h
    cases hsd : spaceHyphen d with
    | false =>
      have he : collapseAux (d :: cs) b = d :: collapseAux cs false := by
        simp [collapseAux, hsd]
      rw [he, List.mem_cons] at h
      cases h with
      | inl h => exact Or.inr ⟨h ▸ List.mem_cons_self _ _, h ▸ hsd⟩
      | inr h =>
        cases ih false h with
        | inl h' => exact Or.inl h'
        | inr h' => exact Or.inr ⟨List.mem_cons_of_mem _ h'.1, h'.2⟩
    | true =>
      cases b with
      | true =>
        have he : collapseAux (d :: cs) true = collapseAux cs true := by
          simp [collapseAux, hsd]
        rw [he] at h
        cases ih true h with
        | inl h' => exact Or.inl h'
        | inr h' => exact Or.inr ⟨List.mem_cons_of_mem _ h'.1, h'.2⟩
      | false =>
        have he : collapseAux (d :: cs) false = '-' :: collapseAux cs true := by
          simp [collapseAux, hsd]
        rw [he, List.mem_cons] at h
        cases h with
        | inl h => exact Or.inl h
        | inr h =>
          cases ih true h with
          | inl h' => exact Or.inl h'
          | inr h' => exact Or.inr ⟨List.mem_cons_of_mem _ h'.1, h'.2⟩

theorem head_collapseAux_true :
    ∀ (l : List Char) {c : Char}, (collapseAux l true).head? = some c →
      spaceHyphen c = false := by
  intro l
  induction l with
  | nil => intro c h; simp [collapseAux] at h
  | cons d cs ih =>
    intro c h
    cases hsd : spaceHyphen d with
    | false =>
      have he : collapseAux (d :: cs) true = d :: collapseAux cs false := by
        simp [collapseAux, hsd]
      rw [he, List.head?_cons, Option.some.injEq] at h
      exact h ▸ hsd
    | true =>
      have he : collapseAux (d :: cs) true = collapseAux cs true := by
        simp [collapseAux, hsd]
      rw [he] at h
      exact ih h

theorem spaceHyphen_hyphen : spaceHyphen '-' = true := by decide

theorem chain_collapseAux :
    ∀ (l : List Char) (b : Bool), List.Chain' hyphenApart (collapseAux l b) := by
  intro l
  induction l with
  | nil => intro b; simp [collapseAux]
  | cons d cs ih =>
    intro b
    cases hsd : spaceHyphen d with
    | false =>
      have he : collapseAux (d :: cs) b = d :: collapseAux cs false := by
        simp [collapseAux, hsd]
      rw [he, List.chain'_cons']
      refine ⟨?_, ih false⟩
      intro y _ hdy
      rw [hdy.1] at hsd
      exact absurd hsd (by decide)
    | true =>
      cases b with
      | true =>
        have he : collapseAux (d :: cs) true = collapseAux cs true := by
          simp [collapseAux, hsd]
        rw [he]; exact ih true
      | false =>
        have he : collapseAux (d :: cs) false = '-' :: collapseAux cs true := by
          simp [collapseAux, hsd]
        rw [he, List.chain'_cons']
        refine ⟨?_, ih true⟩
        intro y hy hdy
        have hsp := head_collapseAux_true cs hy
        rw [hdy.2, spaceHyphen_hyphen] at hsp
        exact absurd hsp (by decide)

theorem head_dropWhile (p : Char → Bool) :
    ∀ (l : List Char) {c : Char}, ((l.dropWhile p).head? = some c) → p c = false := by
  intro l
  induction l with
  | nil => intro c h; simp [List.dropWhile] at h
  | cons d cs ih =>
    intro c h
    cases hp : p d with
    | false =>
      rw [List.dropWhile_cons_of_neg (by simp [hp])] at h
      rw [List.head?_cons, Option.some.injEq] at h
      exact h ▸ hp
    | true =>
      rw [List.dropWhile_cons_of_pos hp] at h
      exact ih h

theorem head_stripLead {l : List Char} {c : Char}
    (h : (stripLead l).head? = some c) : c ≠ '-' := by
  have hb := head_dropWhile (fun c => c == '-') l h
  simpa using hb

theorem getLast_stripTrail {l : List Char} {c : Char}
    (h : (stripTrail l).getLast? = some c) : c ≠ '-' := by
  unfold stripTrail at h
  rw [List.getLast?_reverse] at h
  have hb := head_dropWhile (fun c => c == '-') l.reverse h
  simpa using hb

theorem stripTrailPfx (l : List Char) : stripTrail l <+: l := by
  unfold stripTrail
  have h : l.reverse.dropWhile (fun c => c == '-') <:+ l.reverse :=
    List.dropWhile_suffix _
  have h2 := List.reverse_prefix.mpr h
  rwa [List.reverse_reverse] at h2

theorem stripLeadSfx (l : List Char) : stripLead l <:+ l :=
  List.dropWhile_suffix _

theorem head?_mono_pfx {l₁ l₂ : List Char} {c : Char}
    (hp : l₁ <+: l₂) (h : l₁.head? = some c) : l₂.head? = some c := by
  obtain ⟨t, rfl⟩ := hp
  cases l₁ with
  | nil => simp at h
  | cons a l => simpa using h

theorem chain_stripTrail {l : List Char}
    (h : List.Chain' hyphenApart l) : List.Chain' hyphenApart (stripTrail l) :=
  h.prefix (stripTrailPfx l)

theorem chain_stripLead {l : List Char}
    (h : List.Chain' hyphenApart l) : List.Chain' hyphenApart (stripLead l) :=
  h.suffix (stripLeadSfx l)

theorem take_pfx (n : Nat) (l : List Char) : l.take n <+: l :=
  List.take_prefix n l

theorem sanitize_props (s : String) :
    (∀ c ∈ (sanitize_filename s).data, illegalChar c = false ∧ pySpace c = false) ∧
    List.Chain' hyphenApart (sanitize_filename s).data ∧
    (∀ c, (sanitize_filename s).data.head? = some c → c ≠ '-') ∧
    (∀ c, (sanitize_filename s).data.getLast? = some c → c ≠ '-') ∧
    (sanitize_filename s).data.length ≤ 100 := by
  have hdata : (sanitize_filename s).data =
      (let l3 := stripTrail (stripLead
        (collapseAux (s.data.filter (fun c => !illegalChar c)) false));
       if 100 < l3.length then stripTrail (l3.take 100) else l3) := rfl
  set l1 := s.data.filter (fun c => !illegalChar c) with hl1
  set l2 := collapseAux l1 false with hl2
  set l3 := stripTrail (stripLead l2) with hl3
  simp only at hdata
  have m1 : ∀ c ∈ l1, illegalChar c = false := by
    intro c hc
    have hm := List.mem_filter.mp hc
    simpa using hm.2
  have m2 : ∀ c ∈ l2, illegalChar c = false ∧ pySpace c = false := by
    intro c hc
    rcases mem_collapseAux l1 false hc with h | ⟨hm, hsp⟩
    · rw [h]; exact ⟨by decide, by decide⟩
    · refine ⟨m1 c hm, ?_⟩
      have hb : (pySpace c || (c == '-')) = false := hsp
      exact (Bool.or_eq_false_iff.mp hb).1
  have sub3 : l3 ⊆ l2 := by
    intro c hc
    exact (stripLeadSfx l2).subset ((stripTrailPfx (stripLead l2)).subset hc)
  have ch3 : List.Chain' hyphenApart l3 :=
    chain_stripTrail (chain_stripLead (chain_collapseAux l1 false))
  have hd3 : ∀ c, l3.head? = some c → c ≠ '-' := by
    intro c hc
    exact head_stripLead (head?_mono_pfx (stripTrailPfx (stripLead l2)) hc)
  have gl3 : ∀ c, l3.getLast? = some c → c ≠ '-' := fun _ hc => getLast_stripTrail hc
  rw [hdata]
  by_cases h100 : 100 < l3.length
  · rw [if_pos h100]
    have subt : stripTrail (l3.take 100) ⊆ l3 := by
      intro c hc
      exact (List.take_subset 100 l3) ((stripTrailPfx (l3.take 100)).subset hc)
    refine ⟨fun c hc => m2 c (sub3 (subt hc)), ?_, ?_, ?_, ?_⟩
    · exact chain_stripTrail (ch3.take 100)
    · intro c hc
      have h1 : (l3.take 100).head? = some c :=
        head?_mono_pfx (stripTrailPfx _) hc
      have h2 : l3.head? = some c := head?_mono_pfx (take_pfx 100 l3) h1
      exact hd3 c h2
    · intro c hc; exact getLast_stripTrail hc
    · calc (stripTrail (l3.take 100)).length
          ≤ (l3.take 100).length := (stripTrailPfx _).length_le
        _ ≤ 100 := List.length_take_le _ _
  · rw [if_neg h100]
    exact ⟨fun c hc => m2 c (sub3 hc), ch3, hd3, gl3, Nat.le_of_not_lt h100⟩

theorem strExt {a b : String} (h : a.data = b.data) : a = b := by
  cases a; cases b; cases h; rfl

/-- C5: for every input string, `sanitize_filename` returns a string that
contains none of the characters `< > : " / \ | ? *`, contains no whitespace,
has no run of consecutive hyphens, neither starts nor ends with a hyphen
(the first/last-character conditions are vacuous exactly when the result is
empty), and has length at most 100. -/
theorem claim_C5_sanitize_safety (s : String) :
    (∀ c ∈ (sanitize_filename s).data, illegalChar c = false ∧ pySpace c = false) ∧
    List.Chain' hyphenApart (sanitize_filename s).data ∧
    (∀ c, (sanitize_filename s).data.head? = some c → c ≠ '-') ∧
    (∀ c, (sanitize_filename s).data.getLast? = some c → c ≠ '-') ∧
    (sanitize_filename s).length ≤ 100 := by
  obtain ⟨a, b, c, d, e⟩ := sanitize_props s
  exact ⟨a, b, c, d, e⟩

theorem claim_C5_witness :
    (illegalChar 'A' = false ∧ pySpace 'A' = false) ∧ 'A' ≠ '-' ∧ 'e' ≠ '-' :=
  ⟨(claim_C5_sanitize_safety "  A<b>: c/d  --e  ").1 'A' (by decide),
   (claim_C5_sanitize_safety "  A<b>: c/d  --e  ").2.2.1 'A' (by decide),
   (claim_C5_sanitize_safety "  A<b>: c/d  --e  ").2.2.2.1 'e' (by decide)⟩

theorem collapseAux_id :
    ∀ (l : List Char) (b : Bool),
      (∀ c ∈ l, pySpace c = false) →
      List.Chain' hyphenApart l →
      (b = true → ∀ c, l.head? = some c → spaceHyphen c = false) →
      collapseAux l b = l := by
  intro l
  induction l with
  | nil => intro b _ _ _; rfl
  | cons d cs ih =>
    intro b hsp hch hhd
    cases hsd : spaceHyphen d with
    | false =>
      have he : collapseAux (d :: cs) b = d :: collapseAux cs false := by
        simp [collapseAux, hsd]
      rw [he, ih false (fun c hc => hsp c (List.mem_cons_of_mem _ hc))
        (List.chain'_cons'.mp hch).2 (fun h => nomatch h)]
    | true =>
      have hdm : d = '-' := by
        have h1 := hsp d (List.mem_cons_self _ _)
        have h2 : (pySpace d || (d == '-')) = true := hsd
        rw [h1] at h2
        simpa using h2
      cases b with
      | true =>
        have hcon := hhd rfl d rfl
        rw [hsd] at hcon
        exact nomatch hcon
      | false =>
        have he : collapseAux (d :: cs) false = '-' :: collapseAux cs true := by
          simp [collapseAux, hsd]
        rw [he, hdm]
        congr 1
        apply ih true (fun c hc => hsp c (List.mem_cons_of_mem _ hc))
          (List.chain'_cons'.mp hch).2
        intro _ c hc
        have hrel := (List.chain'_cons'.mp hch).1 c hc
        have hcm : c ∈ cs := by
          cases cs with
          | nil => simp at hc
          | cons a t =>
            rw [List.head?_cons, Option.some.injEq] at hc
            exact hc ▸ List.mem_cons_self _ _
        have hpc : pySpace c = false := hsp c (List.mem_cons_of_mem _ hcm)
        have hcne : c ≠ '-' := fun hcc => hrel ⟨hdm, hcc⟩
        simp [spaceHyphen, hpc, hcne]

theorem stripLead_id {l : List Char} (h : ∀ c, l.head? = some c → c ≠ '-') :
    stripLead l = l := by
  cases l with
  | nil => rfl
  | cons d cs =>
    have hd := h d rfl
    unfold stripLead
    rw [List.dropWhile_cons_of_neg (by simpa using hd)]

theorem stripTrail_id {l : List Char} (h : ∀ c, l.getLast? = some c → c ≠ '-') :
    stripTrail l = l := by
  have h2 : ∀ c, l.reverse.head? = some c → c ≠ '-' := by
    intro c hc
    exact h c (by rwa [List.head?_reverse] at hc)
  have h3 : stripLead l.reverse = l.reverse := stripLead_id h2
  unfold stripLead at h3
  unfold stripTrail
  rw [h3, List.reverse_reverse]

theorem sanitize_fix (y : String)
    (m : ∀ c ∈ y.data, illegalChar c = false ∧ pySpace c = false)
    (ch : List.Chain' hyphenApart y.data)
    (hd : ∀ c, y.data.head? = some c → c ≠ '-')
    (gl : ∀ c, y.data.getLast? = some c → c ≠ '-')
    (len : y.data.length ≤ 100) :
    sanitize_filename y = y := by
  have hf : y.data.filter (fun c => !illegalChar c) = y.data :=
    List.filter_eq_self.mpr (fun c hc => by simp [(m c hc).1])
  have hcoll : collapseAux y.data false = y.data :=
    collapseAux_id y.data false (fun c hc => (m c hc).2) ch (fun h => nomatch h)
  have hsl : stripLead y.data = y.data := stripLead_id hd
  have hst : stripTrail y.data = y.data := stripTrail_id gl
  have hdata : (sanitize_filename y).data =
      (if 100 < (stripTrail (stripLead
            (collapseAux (y.data.filter fun c => !illegalChar c) false))).length
       then stripTrail ((stripTrail (stripLead
            (collapseAux (y.data.filter fun c => !illegalChar c) false))).take 100)
       else stripTrail (stripLead
            (collapseAux (y.data.filter fun c => !illegalChar c) false))) := rfl
  rw [hf, hcoll, hsl, hst] at hdata
  rw [if_neg (by omega)] at hdata
  exact strExt hdata

/-- C6: `sanitize_filename` is idempotent. -/
theorem claim_C6_sanitize_idempotent (s : String) :
    sanitize_filename (sanitize_filename s) = sanitize_filename s := by
  obtain ⟨m, ch, hd, gl, len⟩ := sanitize_props s
  exact sanitize_fix (sanitize_filename s) m ch hd gl len

theorem collapseAux_allClass_true :
    ∀ (l : List Char), (∀ c ∈ l, spaceHyphen c = true) → collapseAux l true = [] := by
  intro l
  induction l with
  | nil => intro _; rfl
  | cons d cs ih =>
    intro h
    have hd := h d (List.mem_cons_self _ _)
    have he : collapseAux (d :: cs) true = collapseAux cs true := by
      simp [collapseAux, hd]
    rw [he]
    exact ih (fun c hc => h c (List.mem_cons_of_mem _ hc))

theorem collapseAux_allClass_false (l : List Char)
    (h : ∀ c ∈ l, spaceHyphen c = true) :
    collapseAux l false = [] ∨ collapseAux l false = ['-'] := by
  cases l with
  | nil => exact Or.inl rfl
  | cons d cs =>
    right
    have hd := h d (List.mem_cons_self _ _)
    have he : collapseAux (d :: cs) false = '-' :: collapseAux cs true := by
      simp [collapseAux, hd]
    rw [he, collapseAux_allClass_true cs (fun c hc => h c (List.mem_cons_of_mem _ hc))]

theorem sanitize_allClass (s : String)
    (h : ∀ c ∈ s.data, illegalChar c = true ∨ pySpace c = true ∨ c = '-') :
    sanitize_filename s = "" := by
  have hclass : ∀ c ∈ s.data.filter (fun c => !illegalChar c), spaceHyphen c = true := by
    intro c hc
    obtain ⟨hm, hil⟩ := List.mem_filter.mp hc
    rcases h c hm with h1 | h2 | h3
    · rw [h1] at hil; exact nomatch hil
    · simp [spaceHyphen, h2]
    · simp [spaceHyphen, h3]
  have hdata : (sanitize_filename s).data =
      (if 100 < (stripTrail (stripLead
            (collapseAux (s.data.filter fun c => !illegalChar c) false))).length
       then stripTrail ((stripTrail (stripLead
            (collapseAux (s.data.filter fun c => !illegalChar c) false))).take 100)
       else stripTrail (stripLead
            (collapseAux (s.data.filter fun c => !illegalChar c) false))) := rfl
  rcases collapseAux_allClass_false _ hclass with h0 | h1
  · rw [h0] at hdata
    have hz : (if 100 < (stripTrail (stripLead ([] : List Char))).length
       then stripTrail ((stripTrail (stripLead ([] : List Char))).take 100)
       else stripTrail (stripLead ([] : List Char))) = [] := by decide
    exact strExt (hdata.trans hz)
  · rw [h1] at hdata
    have hz : (if 100 < (stripTrail (stripLead ['-'])).length
       then stripTrail ((stripTrail (stripLead ['-'])).take 100)
       else stripTrail (stripLead ['-'])) = [] := by decide
    exact strExt (hdata.trans hz)

/- ------------------------------------------------------------------ -/
/- The two-pass suggestion flow (C2).                                  -/
/- ------------------------------------------------------------------ -/

/-- C2 (amended): when the first suggestion call returns confidence "low"
(case-insensitively), exactly one additional call is made, whose excerpt is
the first 4000 characters of the original text excerpt — always a prefix of
it, and strictly shorter whenever the original exceeds 4000 characters — and
the second result unconditionally replaces the first, regardless of its own
confidence; when the first call returns confidence "high" or "medium", no
additional call is made. -/
theorem claim_C2_amended (excerpt : String) (oracle : Nat → CallOutcome)
    (s : Suggestion) (h0 : oracle 0 = CallOutcome.ok s) :
    (lowConf s = true →
      (runAttempt excerpt oracle 0).excerpts = [excerpt, strTake excerpt 4000] ∧
      (strTake excerpt 4000).data <+: excerpt.data ∧
      (4000 < excerpt.length → (strTake excerpt 4000).length < excerpt.length) ∧
      (∀ s2, oracle 1 = CallOutcome.ok s2 →
        (runAttempt excerpt oracle 0).result = Except.ok s2)) ∧
    ((pyLower s.confidence = "high" ∨ pyLower s.confidence = "medium") →
      (runAttempt excerpt oracle 0).excerpts = [excerpt] ∧
      (runAttempt excerpt oracle 0).result = Except.ok s) := by
  constructor
  · intro hlow
    have hpre : (strTake excerpt 4000).data <+: excerpt.data := take_pfx 4000 excerpt.data
    have hlen : 4000 < excerpt.length → (strTake excerpt 4000).length < excerpt.length := by
      intro hgt
      have hmin : (strTake excerpt 4000).length = min 4000 excerpt.length := by
        show (excerpt.data.take 4000).length = min 4000 excerpt.data.length
        exact List.length_take _ _
      omega
    refine ⟨?_, hpre, hlen, ?_⟩
    · unfold runAttempt
      rw [h0]
      simp [hlow]
      cases oracle 1 <;> rfl
    · intro s2 h1
      unfold runAttempt
      rw [h0]
      simp [hlow]
      rw [h1]
  · intro hhm
    have hl : lowConf s = false := by
      unfold lowConf
      rcases hhm with h | h <;> rw [h] <;> decide
    unfold runAttempt
    rw [h0]
    simp [hl]

/-- C2 counterexample: with a 3-character excerpt and a low-confidence first
answer, the second call is made but its excerpt equals the original — it is
not strictly shorter, refuting the claim as stated. -/
theorem claim_C2_counterexample :
    (runAttempt "abc" c2cOracle 0).excerpts = ["abc", "abc"] ∧
    ¬ ∃ e2 : String, (runAttempt "abc" c2cOracle 0).excerpts = ["abc", e2] ∧
        e2.length < ("abc" : String).length := by
  have hex : (runAttempt "abc" c2cOracle 0).excerpts = ["abc", "abc"] := by decide
  refine ⟨hex, ?_⟩
  rintro ⟨e2, he, hlen⟩
  rw [hex] at he
  simp at he
  rw [← he] at hlen
  exact absurd hlen (by decide)

theorem claim_C2_witness :
    (runAttempt "abc" c2wOracle 0).excerpts = ["abc", strTake "abc" 4000] ∧
    (runAttempt "abc" c2wOracle 0).result = Except.ok ⟨"u", "high", "r"⟩ := by
  have h := (claim_C2_amended "abc" c2wOracle ⟨"t", "Low", "r"⟩ rfl).1 (by decide)
  exact ⟨h.1, h.2.2.2 ⟨"u", "high", "r"⟩ rfl⟩

/- ------------------------------------------------------------------ -/
/- The tenacity retry layer (C7, C8).                                  -/
/- ------------------------------------------------------------------ -/

theorem runAttempt_excerpts_len (excerpt : String) (oracle : Nat → CallOutcome)
    (i : Nat) :
    (runAttempt excerpt oracle i).excerpts = [excerpt] ∨
    (runAttempt excerpt oracle i).excerpts = [excerpt, strTake excerpt 4000] := by
  unfold runAttempt
  cases oracle i with
  | transient m => exact Or.inl rfl
  | fatal m => exact Or.inl rfl
  | ok s =>
    cases hl : lowConf s with
    | false => exact Or.inl (by simp [hl])
    | true =>
      cases oracle (i + 1) with
      | transient m => exact Or.inr (by simp [hl])
      | fatal m => exact Or.inr (by simp [hl])
      | ok s2 => exact Or.inr (by simp [hl])

theorem genRetryAux_ok (excerpt : String) (oracle : Nat → CallOutcome)
    (i attempt remaining : Nat) (s : Suggestion) (ex : List String) (nx : Nat)
    (h : runAttempt excerpt oracle i = ⟨Except.ok s, ex, nx⟩) :
    genRetryAux excerpt oracle i attempt remaining = ⟨Except.ok s, ex, [], 1⟩ := by
  cases remaining with
  | zero => simp only [genRetryAux]; rw [h]; rfl
  | succ r => simp only [genRetryAux]; rw [h]; rfl

theorem genRetryAux_fatal (excerpt : String) (oracle : Nat → CallOutcome)
    (i attempt remaining : Nat) (m : String) (ex : List String) (nx : Nat)
    (h : runAttempt excerpt oracle i = ⟨Except.error (PyErr.fatal m), ex, nx⟩) :
    genRetryAux excerpt oracle i attempt remaining =
      ⟨Except.error (PyErr.fatal m), ex, [], 1⟩ := by
  cases remaining with
  | zero => simp only [genRetryAux]; rw [h]; rfl
  | succ r => simp only [genRetryAux]; rw [h]; rfl

theorem genRetryAux_transient_zero (excerpt : String) (oracle : Nat → CallOutcome)
    (i attempt : Nat) (m : String) (ex : List String) (nx : Nat)
    (h : runAttempt excerpt oracle i = ⟨Except.error (PyErr.transient m), ex, nx⟩) :
    genRetryAux excerpt oracle i attempt 0 =
      ⟨Except.error (PyErr.transient m), ex, [], 1⟩ := by
  simp only [genRetryAux]; rw [h]; rfl

theorem genRetryAux_transient_succ (excerpt : String) (oracle : Nat → CallOutcome)
    (i attempt r : Nat) (m : String) (ex : List String) (nx : Nat)
    (h : runAttempt excerpt oracle i = ⟨Except.error (PyErr.transient m), ex, nx⟩) :
    genRetryAux excerpt oracle i attempt (r + 1) =
      ⟨(genRetryAux excerpt oracle nx (attempt + 1) r).result,
        ex ++ (genRetryAux excerpt oracle nx (attempt + 1) r).excerpts,
        tenacityWait attempt :: (genRetryAux excerpt oracle nx (attempt + 1) r).waits,
        (genRetryAux excerpt oracle nx (attempt + 1) r).attempts + 1⟩ := by
  simp only [genRetryAux]; rw [h]

theorem retry_triv (res : Except PyErr Suggestion) (ex : List String)
    (hex : ex.length ≤ 2) (attempt rbound : Nat) :
    1 ≤ (⟨res, ex, [], 1⟩ : RetryRun).attempts ∧
    (⟨res, ex, [], 1⟩ : RetryRun).attempts ≤ rbound + 1 ∧
    (⟨res, ex, [], 1⟩ : RetryRun).waits =
      (List.range ((⟨res, ex, [], 1⟩ : RetryRun).attempts - 1)).map
        (fun k => tenacityWait (attempt + k)) ∧
    (⟨res, ex, [], 1⟩ : RetryRun).excerpts.length ≤
      2 * (⟨res, ex, [], 1⟩ : RetryRun).attempts :=
  ⟨le_refl 1, Nat.succ_le_succ (Nat.zero_le _), rfl, hex⟩

theorem genRetryAux_bounds (excerpt : String) (oracle : Nat → CallOutcome) :
    ∀ (r i attempt : Nat),
      1 ≤ (genRetryAux excerpt oracle i attempt r).attempts ∧
      (genRetryAux excerpt oracle i attempt r).attempts ≤ r + 1 ∧
      (genRetryAux excerpt oracle i attempt r).waits =
        (List.range ((genRetryAux excerpt oracle i attempt r).attempts - 1)).map
          (fun k => tenacityWait (attempt + k)) ∧
      (genRetryAux excerpt oracle i attempt r).excerpts.length ≤
        2 * (genRetryAux excerpt oracle i attempt r).attempts := by
  intro r
  induction r with
  | zero =>
    intro i attempt
    cases hr : runAttempt excerpt oracle i with
    | mk res ex nx =>
      have hex : ex.length ≤ 2 := by
        have hl := runAttempt_excerpts_len excerpt oracle i
        rw [hr] at hl
        rcases hl with h | h <;> simp_all
      cases res with
      | ok s =>
        rw [genRetryAux_ok excerpt oracle i attempt 0 s ex nx hr]
        exact retry_triv _ ex hex attempt 0
      | error e =>
        cases e with
        | fatal m =>
          rw [genRetryAux_fatal excerpt oracle i attempt 0 m ex nx hr]
          exact retry_triv _ ex hex attempt 0
        | transient m =>
          rw [genRetryAux_transient_zero excerpt oracle i attempt m ex nx hr]
          exact retry_triv _ ex hex attempt 0
  | succ r ih =>
    intro i attempt
    cases hr : runAttempt excerpt oracle i with
    | mk res ex nx =>
      have hex : ex.length ≤ 2 := by
        have hl := runAttempt_excerpts_len excerpt oracle i
        rw [hr] at hl
        rcases hl with h | h <;> simp_all
      cases res with
      | ok s =>
        rw [genRetryAux_ok excerpt oracle i attempt (r + 1) s ex nx hr]
        exact retry_triv _ ex hex attempt (r + 1)
      | error e =>
        cases e with
        | fatal m =>
          rw [genRetryAux_fatal excerpt oracle i attempt (r + 1) m ex nx hr]
          exact retry_triv _ ex hex attempt (r + 1)
        | transient m =>
          rw [genRetryAux_transient_succ excerpt oracle i attempt r m ex nx hr]
          obtain ⟨ih1, ih2, ih3, ih4⟩ := ih nx (attempt + 1)
          refine ⟨?_, ?_, ?_, ?_⟩
          · show 1 ≤ (genRetryAux excerpt oracle nx (attempt + 1) r).attempts + 1
            omega
          · show (genRetryAux excerpt oracle nx (attempt + 1) r).attempts + 1 ≤ r + 1 + 1
            omega
          · show tenacityWait attempt ::
                (genRetryAux excerpt oracle nx (attempt + 1) r).waits =
              (List.range ((genRetryAux excerpt oracle nx (attempt + 1) r).attempts
                + 1 - 1)).map (fun k => tenacityWait (attempt + k))
            rw [ih3]
            have hsub : (genRetryAux excerpt oracle nx (attempt + 1) r).attempts
                + 1 - 1 = ((genRetryAux excerpt oracle nx (attempt + 1) r).attempts
                - 1) + 1 := by omega
            rw [hsub, List.range_succ_eq_map, List.map_cons, List.map_map]
            refine congrArg₂ _ (by simp) ?_
            apply List.map_congr_left
            intro a _
            simp only [Function.comp]
            congr 1
            omega
          · show (ex ++ (genRetryAux excerpt oracle nx (attempt + 1) r).excerpts).length
              ≤ 2 * ((genRetryAux excerpt oracle nx (attempt + 1) r).attempts + 1)
            rw [List.length_append]
            omega

theorem tenacityWait_bounds (n : Nat) : 4 ≤ tenacityWait n ∧ tenacityWait n ≤ 30 :=
  ⟨le_max_left _ _, max_le (by decide) (min_le_right _ _)⟩

/-- C7: a suggestion call failing with a transient transport error is retried
automatically, up to 3 attempts in total; before the k-th retry the loop
sleeps `tenacityWait k = max 4 (min (2 * 2 ^ (k - 1)) 30)` time-units
(exponential base 2, floor 4, cap 30 — so 4, 4 for the two possible retries,
each between 4 and 30); a non-transient error propagates immediately after a
single attempt with no backoff; and when all 3 attempts fail transiently the
last error propagates to the caller. -/
theorem claim_C7_retry_policy (excerpt : String) (oracle : Nat → CallOutcome) :
    ((generate_filename excerpt oracle).attempts ≤ 3 ∧
     1 ≤ (generate_filename excerpt oracle).attempts ∧
     (generate_filename excerpt oracle).waits =
       (List.range ((generate_filename excerpt oracle).attempts - 1)).map
         (fun k => tenacityWait (1 + k)) ∧
     (∀ w ∈ (generate_filename excerpt oracle).waits, 4 ≤ w ∧ w ≤ 30)) ∧
    (∀ m ex nx,
      runAttempt excerpt oracle 0 = ⟨Except.error (PyErr.fatal m), ex, nx⟩ →
      generate_filename excerpt oracle =
        ⟨Except.error (PyErr.fatal m), ex, [], 1⟩) ∧
    (∀ msg : Nat → String, (∀ n, oracle n = CallOutcome.transient (msg n)) →
      (generate_filename excerpt oracle).result =
        Except.error (PyErr.transient (msg 2)) ∧
      (generate_filename excerpt oracle).attempts = 3 ∧
      (generate_filename excerpt oracle).waits = [tenacityWait 1, tenacityWait 2] ∧
      tenacityWait 1 = 4 ∧ tenacityWait 2 = 4) := by
  obtain ⟨b1, b2, b3, b4⟩ := genRetryAux_bounds excerpt oracle 2 0 1
  have a1 : 1 ≤ (generate_filename excerpt oracle).attempts := b1
  have a2 : (generate_filename excerpt oracle).attempts ≤ 3 := b2
  have a3 : (generate_filename excerpt oracle).waits =
      (List.range ((generate_filename excerpt oracle).attempts - 1)).map
        (fun k => tenacityWait (1 + k)) := b3
  refine ⟨⟨a2, a1, a3, ?_⟩, ?_, ?_⟩
  · intro w hw
    rw [a3] at hw
    obtain ⟨k, _, rfl⟩ := List.mem_map.mp hw
    exact tenacityWait_bounds (1 + k)
  · intro m ex nx h
    exact genRetryAux_fatal excerpt oracle 0 1 2 m ex nx h
  · intro msg ht
    have hra : ∀ i, runAttempt excerpt oracle i =
        ⟨Except.error (PyErr.transient (msg i)), [excerpt], i + 1⟩ := by
      intro i; unfold runAttempt; rw [ht i]
    have e2 : genRetryAux excerpt oracle 2 3 0 =
        ⟨Except.error (PyErr.transient (msg 2)), [excerpt], [], 1⟩ :=
      genRetryAux_transient_zero excerpt oracle 2 3 (msg 2) [excerpt] 3 (hra 2)
    have e1 : genRetryAux excerpt oracle 1 2 1 =
        ⟨Except.error (PyErr.transient (msg 2)), [excerpt, excerpt],
          [tenacityWait 2], 2⟩ := by
      rw [genRetryAux_transient_succ excerpt oracle 1 2 0 (msg 1) [excerpt] 2 (hra 1),
        e2]
      rfl
    have e0 : generate_filename excerpt oracle =
        ⟨Except.error (PyErr.transient (msg 2)), [excerpt, excerpt, excerpt],
          [tenacityWait 1, tenacityWait 2], 3⟩ := by
      show genRetryAux excerpt oracle 0 1 2 = _
      rw [genRetryAux_transient_succ excerpt oracle 0 1 1 (msg 0) [excerpt] 1 (hra 0),
        e1]
      rfl
    rw [e0]
    exact ⟨rfl, rfl, rfl, by decide, by decide⟩

theorem claim_C7_witness :
    ((generate_filename "x" allTransientOracle).result =
        Except.error (PyErr.transient "timeout") ∧
      (generate_filename "x" allTransientOracle).attempts = 3 ∧
      (generate_filename "x" allTransientOracle).waits =
        [tenacityWait 1, tenacityWait 2] ∧
      tenacityWait 1 = 4 ∧ tenacityWait 2 = 4) ∧
    generate_filename "x" allFatalOracle =
      ⟨Except.error (PyErr.fatal "malformed"), ["x"], [], 1⟩ := by
  constructor
  · exact (claim_C7_retry_policy "x" allTransientOracle).2.2 (fun _ => "timeout")
      (fun n => rfl)
  · exact (claim_C7_retry_policy "x" allFatalOracle).2.1 "malformed" ["x"] 1 rfl

/-- C8 (amended): per tenacity attempt the task makes at most two LLM calls
(first pass plus at most one low-confidence refinement), and there are at most
3 attempts, so a task makes at most 6 LLM calls; when no transport retry
occurs (a single attempt), the task makes at most two LLM calls. -/
theorem claim_C8_amended (excerpt : String) (oracle : Nat → CallOutcome) :
    (generate_filename excerpt oracle).excerpts.length ≤ 6 ∧
    ((generate_filename excerpt oracle).attempts = 1 →
      (generate_filename excerpt oracle).excerpts.length ≤ 2) := by
  obtain ⟨b1, b2, b3, b4⟩ := genRetryAux_bounds excerpt oracle 2 0 1
  have a2 : (generate_filename excerpt oracle).attempts ≤ 3 := b2
  have a4 : (generate_filename excerpt oracle).excerpts.length ≤
      2 * (generate_filename excerpt oracle).attempts := b4
  exact ⟨by omega, fun h => by omega⟩

/-- C8 counterexample: a transient failure on the first call followed by a
low-confidence attempt makes the task perform three LLM calls in the default
flow, refuting "no execution of a task performs more than two LLM calls". -/
theorem claim_C8_counterexample :
    (generate_filename "doc" c8cOracle).excerpts.length = 3 ∧
    ¬ ((generate_filename "doc" c8cOracle).excerpts.length ≤ 2) := by
  constructor
  · decide
  · decide

theorem claim_C8_witness :
    (generate_filename "x" okHighOracle).excerpts.length ≤ 2 :=
  (claim_C8_amended "x" okHighOracle).2 (by decide)

/- ------------------------------------------------------------------ -/
/- The batch orchestrator (C1).                                        -/
/- ------------------------------------------------------------------ -/

theorem retry_ok_of_allOk (excerpt : String) (oracle : Nat → CallOutcome)
    (h : oracleAllOk oracle) :
    ∃ s, (generate_filename excerpt oracle).result = Except.ok s := by
  obtain ⟨s0, h0⟩ := h 0
  cases hl : lowConf s0 with
  | false =>
    have hra : runAttempt excerpt oracle 0 = ⟨Except.ok s0, [excerpt], 1⟩ := by
      unfold runAttempt; rw [h0]; simp [hl]
    refine ⟨s0, ?_⟩
    show (genRetryAux excerpt oracle 0 1 2).result = Except.ok s0
    rw [genRetryAux_ok excerpt oracle 0 1 2 s0 [excerpt] 1 hra]
  | true =>
    obtain ⟨s1, h1⟩ := h 1
    have hra : runAttempt excerpt oracle 0 =
        ⟨Except.ok s1, [excerpt, strTake excerpt 4000], 2⟩ := by
      unfold runAttempt; rw [h0]; simp [hl]; rw [h1]
    refine ⟨s1, ?_⟩
    show (genRetryAux excerpt oracle 0 1 2).result = Except.ok s1
    rw [genRetryAux_ok excerpt oracle 0 1 2 s1 [excerpt, strTake excerpt 4000] 2 hra]

/-- C1: the batch of N inputs yields exactly N results, each determined by its
own task alone; a task whose extraction adapter raises yields the Error result
carrying the failure message, while any task whose extraction and suggestion
calls all succeed yields a Complete result — so one task's exception never
aborts the batch or affects the others. -/
theorem claim_C1_batch_isolation (ts : List TaskInput) (i : Nat) (t : TaskInput)
    (h : ts[i]? = some t) :
    (process_all ts).length = ts.length ∧
    (process_all ts)[i]? = some (process_pdf t) ∧
    (∀ e, t.extraction = Except.error e →
      (process_all ts)[i]? = some ⟨t.path, "", "error", e, TaskStatus.error⟩) ∧
    (∀ text, t.extraction = Except.ok text → oracleAllOk t.oracle →
      ∃ s : Suggestion, (process_all ts)[i]? =
        some ⟨t.path, sanitize_filename s.filename, s.confidence, s.reasoning,
          TaskStatus.complete⟩) := by
  have hlen : (process_all ts).length = ts.length := List.length_map _ _
  have hmap : (process_all ts)[i]? = some (process_pdf t) := by
    unfold process_all
    rw [List.getElem?_map, h]
    rfl
  refine ⟨hlen, hmap, ?_, ?_⟩
  · intro e he
    rw [hmap]
    unfold process_pdf
    rw [he]
  · intro text he hok
    obtain ⟨s, hs⟩ := retry_ok_of_allOk text t.oracle hok
    refine ⟨s, ?_⟩
    rw [hmap]
    have hpp : process_pdf t =
        (match (generate_filename text t.oracle).result with
         | Except.error err =>
            ⟨t.path, "", "error", errMsg err, TaskStatus.error⟩
         | Except.ok s =>
            ⟨t.path, sanitize_filename s.filename, s.confidence, s.reasoning,
              TaskStatus.complete⟩) := by
      unfold process_pdf
      rw [he]
    rw [hpp, hs]

theorem claim_C1_witness :
    (process_all [tBad, tGood]).length = 2 ∧
    (process_all [tBad, tGood])[0]? =
      some ⟨"a.pdf", "", "error", "boom", TaskStatus.error⟩ ∧
    (∃ s : Suggestion, (process_all [tBad, tGood])[1]? =
      some ⟨"b.pdf", sanitize_filename s.filename, s.confidence, s.reasoning,
        TaskStatus.complete⟩) := by
  refine ⟨?_, ?_, ?_⟩
  · exact (claim_C1_batch_isolation [tBad, tGood] 0 tBad rfl).1
  · exact (claim_C1_batch_isolation [tBad, tGood] 0 tBad rfl).2.2.1 "boom" rfl
  · exact (claim_C1_batch_isolation [tBad, tGood] 1 tGood rfl).2.2.2 "text" rfl
      (fun n => ⟨⟨"Smith-Paper-2020", "high", "found"⟩, rfl⟩)

/- ------------------------------------------------------------------ -/
/- Decimal rendering and collision resolution (C3).                    -/
/- ------------------------------------------------------------------ -/

theorem digitVal_digitChar : ∀ n, n < 10 → digitVal (Nat.digitChar n) = n := by
  decide

theorem parseNat_snoc (l : List Char) (c : Char) :
    parseNat (l ++ [c]) = 10 * parseNat l + digitVal c := by
  unfold parseNat
  rw [List.foldl_append]
  rfl

theorem parseNat_toDecimalAux :
    ∀ (fuel n : Nat), n < fuel → parseNat (toDecimalAux fuel n) = n := by
  intro fuel
  induction fuel with
  | zero => intro n h; omega
  | succ f ih =>
    intro n h
    by_cases h10 : n < 10
    · simp only [toDecimalAux, if_pos h10]
      have hp : parseNat [Nat.digitChar n] = 10 * 0 + digitVal (Nat.digitChar n) := rfl
      rw [hp, digitVal_digitChar n h10]
      omega
    · simp only [toDecimalAux, if_neg h10]
      rw [parseNat_snoc]
      have hdiv : n / 10 < f := by
        have h1 : n / 10 < n := Nat.div_lt_self (by omega) (by omega)
        omega
      rw [ih (n / 10) hdiv, digitVal_digitChar (n % 10) (Nat.mod_lt n (by omega))]
      omega

theorem natToString_inj {a b : Nat} (h : natToString a = natToString b) : a = b := by
  have ha : parseNat (toDecimalAux (a + 1) a) = a :=
    parseNat_toDecimalAux (a + 1) a (by omega)
  have hb : parseNat (toDecimalAux (b + 1) b) = b :=
    parseNat_toDecimalAux (b + 1) b (by omega)
  have hdata : toDecimalAux (a + 1) a = toDecimalAux (b + 1) b :=
    congrArg String.data h
  rw [hdata, hb] at ha
  exact ha.symm

theorem strDataAppend (a b : String) : (a ++ b).data = a.data ++ b.data := by
  cases a; cases b; rfl

theorem toDecimalAux_ne_nil (f n : Nat) : toDecimalAux (f + 1) n ≠ [] := by
  by_cases h10 : n < 10
  · simp [toDecimalAux, h10]
  · simp [toDecimalAux, h10]

theorem natToString_len_pos (m : Nat) : 1 ≤ (natToString m).data.length := by
  have h := toDecimalAux_ne_nil m m
  have h2 : (natToString m).data = toDecimalAux (m + 1) m := rfl
  rw [h2]
  exact List.length_pos.mpr h

theorem pyCandidate_data_zero (base : String) :
    (pyCandidate base 0).data = base.data ++ ['.', 'p', 'd', 'f'] := by
  show (base ++ ".pdf").data = _
  rw [strDataAppend]

theorem pyCandidate_data_succ (base : String) (k : Nat) :
    (pyCandidate base (k + 1)).data =
      (base.data ++ ['-']) ++
        ((natToString (k + 1)).data ++ ['.', 'p', 'd', 'f']) := by
  show (base ++ "-" ++ natToString (k + 1) ++ ".pdf").data = _
  rw [strDataAppend, strDataAppend, strDataAppend]
  simp [List.append_assoc]

theorem pyCandidate_inj (base : String) :
    ∀ {j k : Nat}, pyCandidate base j = pyCandidate base k → j = k := by
  intro j k h
  have hdata := congrArg String.data h
  cases j with
  | zero =>
    cases k with
    | zero => rfl
    | succ k =>
      exfalso
      rw [pyCandidate_data_zero, pyCandidate_data_succ] at hdata
      have hlen := congrArg List.length hdata
      simp only [List.length_append] at hlen
      have := natToString_len_pos (k + 1)
      simp at hlen
      omega
  | succ j =>
    cases k with
    | zero =>
      exfalso
      rw [pyCandidate_data_zero, pyCandidate_data_succ] at hdata
      have hlen := congrArg List.length hdata
      simp only [List.length_append] at hlen
      have := natToString_len_pos (j + 1)
      simp at hlen
      omega
    | succ k =>
      rw [pyCandidate_data_succ, pyCandidate_data_succ] at hdata
      have h1 := List.append_cancel_left hdata
      have h2 := List.append_cancel_right h1
      have h3 : natToString (j + 1) = natToString (k + 1) := strExt h2
      have := natToString_inj h3
      omega

theorem freeFrom_free (fs : List String) (cand : Nat → String) :
    ∀ (fuel k : Nat), (∃ i, i < fuel ∧ cand (k + i) ∉ fs) →
      freeFrom fs cand k fuel ∉ fs := by
  intro fuel
  induction fuel with
  | zero =>
    intro k h
    obtain ⟨i, hi, _⟩ := h
    omega
  | succ f ih =>
    intro k h
    by_cases hk : cand k ∈ fs
    · rw [show freeFrom fs cand k (f + 1) = freeFrom fs cand (k + 1) f from by
        simp [freeFrom, hk]]
      apply ih
      obtain ⟨i, hi, hfree⟩ := h
      cases i with
      | zero => exact absurd hk (by simpa using hfree)
      | succ i =>
        refine ⟨i, by omega, ?_⟩
        rw [show k + 1 + i = k + (i + 1) from by omega]
        exact hfree
    · rw [show freeFrom fs cand k (f + 1) = cand k from by simp [freeFrom, hk]]
      exact hk

theorem freeFrom_min (fs : List String) (cand : Nat → String)
    (hinj : ∀ {a b : Nat}, cand a = cand b → a = b) :
    ∀ (fuel k m : Nat), freeFrom fs cand k fuel = cand m →
      ∀ j, k ≤ j → j < m → cand j ∈ fs := by
  intro fuel
  induction fuel with
  | zero =>
    intro k m h j h1 h2
    have := hinj h
    omega
  | succ f ih =>
    intro k m h j h1 h2
    by_cases hk : cand k ∈ fs
    · rw [show freeFrom fs cand k (f + 1) = freeFrom fs cand (k + 1) f from by
        simp [freeFrom, hk]] at h
      rcases Nat.eq_or_lt_of_le h1 with heq | hlt
      · exact heq ▸ hk
      · exact ih (k + 1) m h j (by omega) h2
    · rw [show freeFrom fs cand k (f + 1) = cand k from by simp [freeFrom, hk]] at h
      have := hinj h
      omega

theorem exists_free (fs : List String) (base : String) (k : Nat) :
    ∃ i, i < fs.length + 1 ∧ pyCandidate base (k + i) ∉ fs := by
  by_contra hcon
  push_neg at hcon
  have hinj2 : Function.Injective (fun i => pyCandidate base (k + i)) := by
    intro a b hab
    have := pyCandidate_inj base hab
    omega
  have hnodup : ((List.range (fs.length + 1)).map
      (fun i => pyCandidate base (k + i))).Nodup :=
    List.Nodup.map hinj2 (List.nodup_range _)
  have hsub : ((List.range (fs.length + 1)).map
      (fun i => pyCandidate base (k + i))) ⊆ fs := by
    intro x hx
    obtain ⟨i, hi, hxi⟩ := List.mem_map.mp hx
    rw [← hxi]
    exact hcon i (List.mem_range.mp hi)
  have h1 := List.toFinset_card_of_nodup hnodup
  have h2 : ((List.range (fs.length + 1)).map
      (fun i => pyCandidate base (k + i))).length = fs.length + 1 := by
    simp
  have h3 : ((List.range (fs.length + 1)).map
      (fun i => pyCandidate base (k + i))).toFinset ⊆ fs.toFinset := by
    intro x hx
    exact List.mem_toFinset.mpr (hsub (List.mem_toFinset.mp hx))
  have h4 := Finset.card_le_card h3
  have h5 := fs.toFinset_card_le
  omega

/-- C3: the collision resolver of `process_renames` always commits a target
name that does not collide with any existing file: `{base}.pdf` when free,
otherwise `{base}-k.pdf` for the first free counter `k ≥ 1` — every earlier
candidate is an existing file.  In particular, with `Smith-Topic-2020.pdf`
existing, the suggestion `Smith-Topic-2020` resolves to
`Smith-Topic-2020-1.pdf`, and if that exists too, to `Smith-Topic-2020-2.pdf`. -/
theorem claim_C3_collision_resolution :
    (∀ (fs : List String) (base : String), resolveTarget fs base ∉ fs) ∧
    (∀ (fs : List String) (base : String) (m : Nat),
      resolveTarget fs base = pyCandidate base m →
      ∀ j, j < m → pyCandidate base j ∈ fs) ∧
    resolveTarget ["Smith-Topic-2020.pdf"] "Smith-Topic-2020" =
      "Smith-Topic-2020-1.pdf" ∧
    resolveTarget ["Smith-Topic-2020.pdf", "Smith-Topic-2020-1.pdf"]
      "Smith-Topic-2020" = "Smith-Topic-2020-2.pdf" := by
  refine ⟨?_, ?_, by decide, by decide⟩
  · intro fs base
    unfold resolveTarget
    by_cases h0 : pyCandidate base 0 ∈ fs
    · rw [if_pos h0]
      exact freeFrom_free fs (pyCandidate base) (fs.length + 1) 1
        (exists_free fs base 1)
    · rw [if_neg h0]
      exact h0
  · intro fs base m h j hj
    unfold resolveTarget at h
    by_cases h0 : pyCandidate base 0 ∈ fs
    · rw [if_pos h0] at h
      rcases Nat.eq_zero_or_pos j with rfl | hjpos
      · exact h0
      · exact freeFrom_min fs (pyCandidate base)
          (fun hab => pyCandidate_inj base hab) (fs.length + 1) 1 m h j hjpos hj
    · rw [if_neg h0] at h
      have := pyCandidate_inj base h
      omega

theorem claim_C3_witness :
    pyCandidate "Smith-Topic-2020" 0 ∈
      ["Smith-Topic-2020.pdf", "Smith-Topic-2020-1.pdf"] ∧
    pyCandidate "Smith-Topic-2020" 1 ∈
      ["Smith-Topic-2020.pdf", "Smith-Topic-2020-1.pdf"] := by
  have h := claim_C3_collision_resolution.2.1
    ["Smith-Topic-2020.pdf", "Smith-Topic-2020-1.pdf"] "Smith-Topic-2020" 2
    (by decide)
  exact ⟨h 0 (by decide), h 1 (by decide)⟩

/- ------------------------------------------------------------------ -/
/- The rename phase: dry-run and empty-suggestion handling (C4, C10).  -/
/- ------------------------------------------------------------------ -/

theorem process_renames_dry (outDir : Option String) (interactive : Bool)
    (u : Nat → String × Bool) :
    ∀ (results : List RenResult) (st : RenPhaseOut),
      (process_renames true outDir interactive u results st).ops = st.ops ∧
      (process_renames true outDir interactive u results st).fs = st.fs := by
  intro results
  induction results with
  | nil => intro st; exact ⟨rfl, rfl⟩
  | cons r rest ih =>
    intro st
    simp only [process_renames]
    split_ifs <;> exact ih _

theorem process_renames_skip_empty (dryRun : Bool) (outDir : Option String)
    (interactive : Bool) (u : Nat → String × Bool) (r : RenResult)
    (rest : List RenResult) (st : RenPhaseOut) (h : r.suggested = "") :
    process_renames dryRun outDir interactive u (r :: rest) st =
      process_renames dryRun outDir interactive u rest
        { st with skipped := st.skipped + 1 } := by
  simp only [process_renames]
  rw [if_pos (Or.inl h)]

/-- C4 (amended): in dry-run mode no rename and no move is performed for any
input, any suggestion content, and any interactive decisions — the only
mutations a run can perform are the setup-phase creation of the output
directory (which happens even in dry-run when `--output-dir` names an absent
directory); without an output directory, dry-run performs no mutation at all;
and the would-be rename plan is still reported (one table row per result with
a nonempty suggestion). -/
theorem claim_C4_amended (interactive : Bool) (outDir : Option String)
    (dirEx : Bool) (u : Nat → String × Bool) (results : List RenResult)
    (fs : List String) :
    (runModel true interactive outDir dirEx u results fs).1 =
      setupOps outDir dirEx ∧
    (∀ op ∈ (runModel true interactive outDir dirEx u results fs).1,
      ∃ d, op = FsOp.mkdir d) ∧
    (outDir = none → (runModel true interactive outDir dirEx u results fs).1 = []) ∧
    (interactive = false → ∀ r ∈ results, r.suggested ≠ "" →
      (r.name, r.suggested ++ ".pdf") ∈
        (runModel true interactive outDir dirEx u results fs).2.1) := by
  have hops : (runModel true interactive outDir dirEx u results fs).1 =
      setupOps outDir dirEx := by
    show setupOps outDir dirEx ++
        (if ¬(true : Bool) ∨ interactive then
          process_renames true outDir interactive u results (initState fs)
         else initState fs).ops = setupOps outDir dirEx
    by_cases hcond : (¬(true : Bool) ∨ (interactive : Prop))
    · rw [if_pos hcond,
        (process_renames_dry outDir interactive u results (initState fs)).1]
      simp [initState]
    · rw [if_neg hcond]
      simp [initState]
  refine ⟨hops, ?_, ?_, ?_⟩
  · intro op hop
    rw [hops] at hop
    cases outDir with
    | none => simp [setupOps] at hop
    | some d =>
      cases dirEx with
      | true => simp [setupOps] at hop
      | false =>
        simp [setupOps] at hop
        exact ⟨d, hop⟩
  · intro h
    rw [hops, h]
    rfl
  · intro hint r hr hne
    have htab : (runModel true interactive outDir dirEx u results fs).2.1 =
        tableRows results := by
      show (if interactive then [] else tableRows results) = tableRows results
      rw [hint]
      rfl
    rw [htab]
    unfold tableRows
    exact List.mem_map.mpr ⟨r, List.mem_filter.mpr ⟨hr, by simpa using hne⟩, rfl⟩

/-- C4 counterexample: with `--output-dir out` pointing at a directory that
does not exist, a dry run still performs a filesystem mutation — the setup
phase creates the output directory before dry-run is consulted
(main.py lines 254-259) — refuting "no directory creation". -/
theorem claim_C4_counterexample :
    (runModel true false (some "out") false u0 [] []).1 = [FsOp.mkdir "out"] ∧
    (runModel true false (some "out") false u0 [] []).1 ≠ [] := by
  constructor
  · decide
  · decide

theorem claim_C4_witness :
    (runModel true false none true u0
      [⟨"d", "orig.pdf", "Good-Name", "high", "ok"⟩] []).1 = [] ∧
    ("orig.pdf", "Good-Name.pdf") ∈
      (runModel true false none true u0
        [⟨"d", "orig.pdf", "Good-Name", "high", "ok"⟩] []).2.1 := by
  have h := claim_C4_amended false none true u0
    [⟨"d", "orig.pdf", "Good-Name", "high", "ok"⟩] []
  exact ⟨h.2.2.1 rfl,
    h.2.2.2 rfl ⟨"d", "orig.pdf", "Good-Name", "high", "ok"⟩ (by decide) (by decide)⟩

/-- C10: an input made only of stripped-illegal characters, whitespace, and
hyphens sanitizes to the empty string; and at rename-resolution time a result
whose suggested name is empty is counted as skipped before any target-path
computation, causing no filesystem action — so such a suggestion can never
produce a rename to an empty or extension-only filename. -/
theorem claim_C10_empty_skip :
    (∀ s : String,
      (∀ c ∈ s.data, illegalChar c = true ∨ pySpace c = true ∨ c = '-') →
      sanitize_filename s = "") ∧
    (∀ (dryRun : Bool) (outDir : Option String) (interactive : Bool)
       (u : Nat → String × Bool) (r : RenResult) (rest : List RenResult)
       (st : RenPhaseOut), r.suggested = "" →
      process_renames dryRun outDir interactive u (r :: rest) st =
        process_renames dryRun outDir interactive u rest
          { st with skipped := st.skipped + 1 }) :=
  ⟨sanitize_allClass, process_renames_skip_empty⟩

theorem claim_C10_witness :
    sanitize_filename "<>/ --" = "" ∧
    process_renames true none false u0 [emptyResult] (initState []) =
      { initState [] with skipped := 1 } := by
  constructor
  · exact claim_C10_empty_skip.1 "<>/ --" (by decide)
  · rw [claim_C10_empty_skip.2 true none false u0 emptyResult [] (initState []) rfl]
    rfl

/- ------------------------------------------------------------------ -/
/- Base-URL resolution (C9).                                           -/
/- ------------------------------------------------------------------ -/

/-- C9 (code bug): because the `--url` option has the non-empty default
`"http://localhost:11434/v1"`, the Python expression
`url or os.getenv("LLM_BASE_URL", ...)` always takes `url` when the flag is
absent — so the `LLM_BASE_URL` environment variable is never consulted,
contradicting the spec and the code's own comment "custom URL from env/CLI";
the env fallback is reachable only by passing an explicitly empty `--url`. -/
theorem claim_C9_env_url_ignored :
    (∀ env : Option String, computeBaseUrl none env = urlFlagDefault) ∧
    computeBaseUrl none (some "http://example.com/v1") ≠ "http://example.com/v1" ∧
    computeBaseUrl (some "") (some "http://example.com/v1") =
      "http://example.com/v1" := by
    refine ⟨?_, by decide, by decide⟩
    intro env
    unfold computeBaseUrl
    rw [if_neg (by decide)]
    rfl
